import Mathlib

/-!
Verification development for the Wettstar race-card text-to-record engine
(`wettstar_horse_scraper.py`).  The Python functions are shallowly embedded:
strings are `String`/`List Char`, Python floats are modelled as exact
rationals `ℚ`, `None`/empty-value results are `Option`, and each compiled
regular expression is translated into a small executable backtracking
matcher whose alternatives, quantifiers (greedy and lazy) and capture
groups follow Python `re` semantics on the newline-free inputs the parser
feeds it.
-/

namespace Wettstar

/-- ASCII whitespace, the characters the regex class \s matches on this
corpus (the PDF text is ASCII-spaced). -/
def isWs (c : Char) : Bool :=
  c == ' ' || c == '\t' || c == '\n' || c == '\r' || c == '\x0b' || c == '\x0c'

/-- Digit character, regex class \d. -/
def isDigitC (c : Char) : Bool := c.isDigit

/-- Character class [A-ZÄÖÜ]. -/
def isUpperDE (c : Char) : Bool :=
  ('A' ≤ c && c ≤ 'Z') || c == 'Ä' || c == 'Ö' || c == 'Ü'

/-- Character class [A-Za-zäöüÄÖÜß\s'-], the horse-name characters. -/
def isNameChar (c : Char) : Bool :=
  c.isAlpha || c == 'ä' || c == 'ö' || c == 'ü' || c == 'Ä' || c == 'Ö' ||
    c == 'Ü' || c == 'ß' || isWs c || c == '\'' || c == '-'

/-- Character class [A-Za-zäöüÄÖÜß-], the venue characters of FORM_PAT. -/
def isVenueChar (c : Char) : Bool :=
  c.isAlpha || c == 'ä' || c == 'ö' || c == 'ü' || c == 'Ä' || c == 'Ö' ||
    c == 'Ü' || c == 'ß' || c == '-'

/-- Character class [\d.]. -/
def isDigitDot (c : Char) : Bool := c.isDigit || c == '.'

/-- Character class [\d,]. -/
def isDigitComma (c : Char) : Bool := c.isDigit || c == ','

/-- The regex metacharacter `.` (matches anything but a newline). -/
def isDotAny (c : Char) : Bool := c != '\n'

/-- Character class [^-]. -/
def isNotDash (c : Char) : Bool := c != '-'

/-- Character class [^)]. -/
def isNotParen (c : Char) : Bool := c != ')'

/-- Word character \w as it occurs in this corpus (ASCII alphanumerics,
underscore and the German letters). -/
def isWordChar (c : Char) : Bool :=
  c.isAlphanum || c == '_' || c == 'ä' || c == 'ö' || c == 'ü' || c == 'Ä' ||
    c == 'Ö' || c == 'Ü' || c == 'ß'

/-- Character class [A-Z]. -/
def isAsciiUpper (c : Char) : Bool := 'A' ≤ c && c ≤ 'Z'

/-- Character class [A-Za-z]. -/
def isAsciiAlpha (c : Char) : Bool := c.isAlpha

/-- Captured groups: association list from group index to captured
characters; the most recent write is first. -/
abbrev Caps := List (Nat × List Char)

/-- Abstract syntax of the regex fragments the scraper uses.  A quantified
character class carries its minimum count, optional maximum count and
laziness flag; every quantifier in the source patterns ranges over a single
character class, so no more general repetition is needed. -/
inductive RE where
  | cls (p : Char → Bool) (lo : Nat) (hi : Option Nat) (lzy : Bool)
  | lit (s : List Char)
  | grp (idx : Nat) (rs : List RE)
  | alt (xs ys : List RE)
  | opt (rs : List RE)
  | lookAhead (xs ys : List RE)
  | endAnchor

/-- `+` (greedy). -/
def reP (p : Char → Bool) : RE := .cls p 1 none false
/-- `+?` (lazy). -/
def rePL (p : Char → Bool) : RE := .cls p 1 none true
/-- `*` (greedy). -/
def reS (p : Char → Bool) : RE := .cls p 0 none false
/-- `{n}`. -/
def reN (p : Char → Bool) (n : Nat) : RE := .cls p n (some n) false
/-- `{a,b}` (greedy). -/
def reR (p : Char → Bool) (a b : Nat) : RE := .cls p a (some b) false
/-- `?` on a single character (greedy). -/
def reO (p : Char → Bool) : RE := .cls p 0 (some 1) false
/-- A literal string. -/
def reL (s : String) : RE := .lit s.data

/-- Consume exactly `n` characters matching `p`. -/
def clsExact (p : Char → Bool) : Nat → List Char → Option (List Char)
  | 0, s => some s
  | _ + 1, [] => none
  | n + 1, c :: s => if p c then clsExact p n s else none

/-- Greedy repetition over a character class: consume as many further
characters as possible, backtracking into the continuation `k`. -/
def clsG (p : Char → Bool) (k : List Char → Option (Caps × List Char)) :
    Option Nat → List Char → Option (Caps × List Char)
  | _, [] => k []
  | hi, c :: s =>
    if hi != some 0 && p c then
      match clsG p k (hi.map (· - 1)) s with
      | some r => some r
      | none => k (c :: s)
    else k (c :: s)

/-- Lazy repetition over a character class: try the continuation first,
consuming another character only on failure. -/
def clsL (p : Char → Bool) (k : List Char → Option (Caps × List Char)) :
    Option Nat → List Char → Option (Caps × List Char)
  | _, [] => k []
  | hi, c :: s =>
    match k (c :: s) with
    | some r => some r
    | none => if hi != some 0 && p c then clsL p k (hi.map (· - 1)) s else none

/-- Strip an expected literal prefix. -/
def stripPre : List Char → List Char → Option (List Char)
  | [], s => some s
  | _ :: _, [] => none
  | p :: ps, c :: s => if p == c then stripPre ps s else none

mutual

/-- Match a sequence of regex items at the head of `s`, in
continuation-passing style so that backtracking follows Python `re`'s
leftmost, greedy/lazy preference order. -/
def matchSeq : List RE → List Char → Caps →
    (List Char → Caps → Option (Caps × List Char)) → Option (Caps × List Char)
  | [], s, caps, k => k s caps
  | r :: rs, s, caps, k =>
    matchOne r s caps (fun s' caps' => matchSeq rs s' caps' k)

/-- Match one regex item at the head of `s`. -/
def matchOne : RE → List Char → Caps →
    (List Char → Caps → Option (Caps × List Char)) → Option (Caps × List Char)
  | .cls p lo hi lzy, s, caps, k =>
    match clsExact p lo s with
    | none => none
    | some s1 =>
      let hi' := hi.map (· - lo)
      if lzy then clsL p (fun s2 => k s2 caps) hi' s1
      else clsG p (fun s2 => k s2 caps) hi' s1
  | .lit cs, s, caps, k =>
    match stripPre cs s with
    | none => none
    | some s' => k s' caps
  | .grp idx rs, s, caps, k =>
    matchSeq rs s caps (fun s' caps' =>
      k s' ((idx, s.take (s.length - s'.length)) :: caps'))
  | .alt xs ys, s, caps, k =>
    match matchSeq xs s caps k with
    | some r => some r
    | none => matchSeq ys s caps k
  | .opt rs, s, caps, k =>
    match matchSeq rs s caps k with
    | some r => some r
    | none => k s caps
  | .lookAhead xs ys, s, caps, k =>
    match matchSeq xs s [] (fun s' c' => some (c', s')) with
    | some _ => k s caps
    | none =>
      match matchSeq ys s [] (fun s' c' => some (c', s')) with
      | some _ => k s caps
      | none => none
  | .endAnchor, s, caps, k =>
    match s with
    | [] => k s caps
    | _ :: _ => none

end

/-- `re.match`: anchored match at the start of `s`; returns the captures
and the unconsumed suffix. -/
def reMatchAt (rs : List RE) (s : List Char) : Option (Caps × List Char) :=
  matchSeq rs s [] (fun s' caps => some (caps, s'))

/-- `re.search`: try each start position left to right. -/
def reSearch (rs : List RE) : List Char → Option (Caps × List Char)
  | [] => reMatchAt rs []
  | c :: s =>
    match reMatchAt rs (c :: s) with
    | some r => some r
    | none => reSearch rs s

/-- Worker for `findAll`, with fuel for termination.  The patterns this
file iterates never match the empty string, so each found match strictly
shrinks the remaining input; the `drop 1` bump mirrors `finditer`'s
zero-width advance and is unreachable here. -/
def findAllAux (rs : List RE) : Nat → List Char → List Caps
  | 0, _ => []
  | fuel + 1, s =>
    match reSearch rs s with
    | none => []
    | some (caps, rest) =>
      if rest.length < s.length then caps :: findAllAux rs fuel rest
      else caps :: findAllAux rs fuel (s.drop 1)

/-- `re.finditer`: all non-overlapping matches, left to right. -/
def findAll (rs : List RE) (s : List Char) : List Caps :=
  findAllAux rs (s.length + 1) s

/-- The suffixes of `s` that start just after a newline. -/
def lineStartSuffixes : List Char → List (List Char)
  | [] => []
  | c :: s =>
    if c == '\n' then s :: lineStartSuffixes s else lineStartSuffixes s

/-- `re.search` with `re.MULTILINE` of a `^`-anchored pattern: try the
whole string, then each position following a newline, in document order. -/
def msearchLineStart (rs : List RE) (s : List Char) : Option (Caps × List Char) :=
  (s :: lineStartSuffixes s).findSome? (fun t => reMatchAt rs t)

/-- Group lookup (most recent write wins, as in Python's final capture). -/
def grpGet (caps : Caps) (i : Nat) : List Char :=
  ((caps.find? (fun q => q.1 == i)).map Prod.snd).getD []

/-- Group lookup as a `String`. -/
def grpStr (caps : Caps) (i : Nat) : String := String.mk (grpGet caps i)

/-- Numeric value of a digit character. -/
def digitVal (c : Char) : Nat := c.toNat - '0'.toNat

/-- Worker for `parseDigits`. -/
def parseDigitsAux : List Char → Nat → Option Nat
  | [], acc => some acc
  | c :: cs, acc =>
    if c.isDigit then parseDigitsAux cs (acc * 10 + digitVal c) else none

/-- Python `int` on the captured substrings: all of them are plain digit
runs, so only the all-digits, non-empty form is accepted (anything else
raises in Python and is modelled as `none`). -/
def parseDigits : List Char → Option Nat
  | [] => none
  | c :: cs => parseDigitsAux (c :: cs) 0

/-- Python floats are modelled as exact rational numbers, kept in lowest
terms with a positive denominator by the smart constructor `Q.norm`, so
that structural equality is value equality.  (A bespoke fraction type is
used instead of Mathlib's `ℚ` so that every arithmetic operation reduces
inside the kernel.) -/
structure Q where
  num : ℤ
  den : ℕ
deriving DecidableEq

/-- Normalized fraction `n / d` (callers only divide by nonzero values,
mirroring Python, where a zero divisor would raise). -/
def Q.norm (n : ℤ) (d : ℕ) : Q :=
  let g := n.natAbs.gcd d
  if g = 0 then ⟨0, 1⟩ else ⟨n / (g : ℤ), d / g⟩

/-- Embed a natural number. -/
def Q.ofNat (n : ℕ) : Q := ⟨n, 1⟩

/-- Embed an integer. -/
def Q.ofInt (n : ℤ) : Q := ⟨n, 1⟩

/-- Zero. -/
def Q.zero : Q := ⟨0, 1⟩

/-- Addition. -/
def Q.add (a b : Q) : Q := Q.norm (a.num * b.den + b.num * a.den) (a.den * b.den)

/-- Subtraction. -/
def Q.sub (a b : Q) : Q := Q.norm (a.num * b.den - b.num * a.den) (a.den * b.den)

/-- Multiplication. -/
def Q.mul (a b : Q) : Q := Q.norm (a.num * b.num) (a.den * b.den)

/-- Division. -/
def Q.div (a b : Q) : Q :=
  if b.num < 0 then Q.norm (-(a.num * b.den)) (a.den * b.num.natAbs)
  else Q.norm (a.num * b.den) (a.den * b.num.natAbs)

/-- Strict comparison (denominators are nonnegative). -/
def Q.blt (a b : Q) : Bool := a.num * b.den < b.num * a.den

/-- Floor. -/
def Q.floor (a : Q) : ℤ := Int.fdiv a.num a.den

/-- `10 ^ k`. -/
def Q.pow10 (k : ℕ) : Q := ⟨(10 : ℤ) ^ k, 1⟩

/-- Python `float` on a captured substring: digits with at most one dot. -/
def pyFloat (cs : List Char) : Option Q :=
  match cs.splitOn '.' with
  | [a] => (parseDigits a).map (fun n => Q.ofNat n)
  | [a, b] =>
    if a = [] && b = [] then none
    else
      match (if a = [] then some 0 else parseDigits a),
            (if b = [] then some 0 else parseDigits b) with
      | some x, some y =>
        some ((Q.ofNat x).add ((Q.ofNat y).div (Q.pow10 b.length)))
      | _, _ => none
  | _ => none

/-- `pf`: float conversion after replacing a decimal comma with a dot;
`None` (here `none`) on failure, as the Python `except` branch returns. -/
def pf (s : String) : Option Q :=
  pyFloat (s.data.map (fun c => if c == ',' then '.' else c))

/-- Round to the nearest integer, ties to even — the rounding Python's
`round` performs (modelled on the exact rational value). -/
def rhe (q : Q) : ℤ :=
  let f := q.floor
  let r := q.sub (Q.ofInt f)
  if r.blt ⟨1, 2⟩ then f
  else if Q.blt ⟨1, 2⟩ r then f + 1
  else if f % 2 = 0 then f else f + 1

/-- Python `round(q, n)`. -/
def roundQ (n : Nat) (q : Q) : Q :=
  (Q.ofInt (rhe (q.mul (Q.pow10 n)))).div (Q.pow10 n)

/-- Python slice `s[a:b]` (clamping, character-based). -/
def pySlice (s : String) (a b : Nat) : String :=
  String.mk ((s.data.drop a).take (b - a))

/-- Worker for `splitWs`; `acc` holds the current token reversed. -/
def splitWsAux : List Char → List Char → List String
  | acc, [] => if acc = [] then [] else [String.mk acc.reverse]
  | acc, c :: cs =>
    if isWs c then
      if acc = [] then splitWsAux [] cs
      else String.mk acc.reverse :: splitWsAux [] cs
    else splitWsAux (c :: acc) cs

/-- Python `str.split()` (no argument): split on whitespace runs,
discarding empty tokens. -/
def splitWs (s : String) : List String := splitWsAux [] s.data

/-- Python `' '.join`. -/
def joinSp : List String → String
  | [] => ""
  | [t] => t
  | t :: ts => t ++ " " ++ joinSp ts

/-- Python `str.strip()` (whitespace as above). -/
def pyStrip (s : String) : String :=
  String.mk (((s.data.dropWhile isWs).reverse.dropWhile isWs).reverse)

/-- Python `'\n'.join`, used to form the block's full text. -/
def joinNl : List String → String
  | [] => ""
  | [t] => t
  | t :: ts => t ++ "\n" ++ joinNl ts

/-! ### Date arithmetic (`datetime` subtraction used by `calc_days`) -/

/-- Gregorian leap year, as `calendar`/`datetime` determine it. -/
def isLeap (y : Nat) : Bool := (y % 4 == 0 && y % 100 != 0) || y % 400 == 0

/-- Days in month `m` (1–12) of a year with leap flag `l`. -/
def dim (l : Bool) : Nat → Nat
  | 1 => 31
  | 2 => if l then 29 else 28
  | 3 => 31
  | 4 => 30
  | 5 => 31
  | 6 => 30
  | 7 => 31
  | 8 => 31
  | 9 => 30
  | 10 => 31
  | 11 => 30
  | 12 => 31
  | _ => 0

/-- Days before month `m` in a year with leap flag `l`. -/
def dbm (l : Bool) : Nat → Nat
  | 0 => 0
  | 1 => 0
  | m + 2 => dbm l (m + 1) + dim l (m + 1)

/-- Days before January 1 of year `y` in the proleptic Gregorian calendar
(`date.toordinal` minus the day-of-year part); `y ≥ 1` throughout, as
`datetime` enforces. -/
def dby (y : Nat) : Nat :=
  365 * (y - 1) + (y - 1) / 4 - (y - 1) / 100 + (y - 1) / 400

/-- `date(y, m, d).toordinal()`. -/
def toord (y m d : Nat) : Nat := dby y + dbm (isLeap y) m + d

/-- The validity check `datetime`'s constructor performs. -/
def validDate (y m d : Nat) : Bool :=
  1 ≤ y && y ≤ 9999 && 1 ≤ m && m ≤ 12 && 1 ≤ d && d ≤ dim (isLeap y) m

/-- `datetime.strptime(s, "%Y-%m-%d")` on the caller-supplied meeting date
(the interface fixes the strict `YYYY-MM-DD` form), yielding the validated
(year, month, day). -/
def parseMeeting (s : String) : Option (Nat × Nat × Nat) :=
  if s.data.length = 10 && s.data.get? 4 == some '-' && s.data.get? 7 == some '-' then
    match parseDigits (s.data.take 4) with
    | none => none
    | some y =>
      match parseDigits ((s.data.drop 5).take 2) with
      | none => none
      | some m =>
        match parseDigits ((s.data.drop 8).take 2) with
        | none => none
        | some d => if validDate y m d then some (y, m, d) else none
  else none

/-- `calc_days`: day difference between the meeting date and the most
recent form date `DD.MM`, the year inferred as the meeting year when the
entry month is at most the meeting month and the previous year otherwise;
`''` (here `none`) when either string is empty or anything raises. -/
def calc_days (last_str meeting_str : String) : Option ℤ :=
  if last_str = "" || meeting_str = "" then none
  else
    match parseMeeting meeting_str with
    | none => none
    | some (Y, M, D) =>
      match parseDigits (last_str.data.take 2) with
      | none => none
      | some dd =>
        match parseDigits ((last_str.data.drop 3).take 2) with
        | none => none
        | some mm =>
          let yr := if mm ≤ M then Y else Y - 1
          if validDate yr mm dd then
            some ((toord Y M D : ℤ) - (toord yr mm dd : ℤ))
          else none

/-! ### The compiled patterns of the scraper -/

/-- `STATS_PAT`: one year of aggregate statistics on the header line. -/
def STATS_PAT : List RE :=
  [RE.grp 1 [reN isDigitC 4], reL ":", reS isWs, RE.grp 2 [reP isDigitC],
   reP isWs, reL "Start", reO (· == 's'), reS isWs, reL "-", reS isWs,
   RE.grp 3 [reP isDigitC], reP isWs, reL "Sieg", reO (· == 'e'), reS isWs,
   reL "-", reS isWs, RE.grp 4 [reP isDigitC], reP isWs,
   RE.alt [reL "Plätze"] [reL "Platz"], reS isWs,
   RE.grp 5 [reP isDigitDot], reS isWs, reL "€"]

/-- `FORM_PAT`: one prior-race entry
`DD.MM venue place weight distance prize odds rest`. -/
def FORM_PAT : List RE :=
  [RE.grp 1 [reN isDigitC 2, reL ".", reN isDigitC 2],
   RE.grp 2 [reP isVenueChar], reP isWs,
   RE.grp 3 [reR isDigitC 1 2],
   RE.grp 4 [reN isDigitC 2, reL ".", reP isDigitC], reP isWs,
   RE.grp 5 [reR isDigitC 3 4], reP isWs,
   RE.grp 6 [reP isDigitDot], reS isWs,
   RE.grp 7 [reP isDigitComma], reP isWs,
   RE.grp 8 [rePL isDotAny],
   RE.lookAhead [reS isWs, reN isDigitC 2, reL ".", reN isDigitC 2, reN isAsciiAlpha 1]
     [reS isWs, RE.endAnchor]]

/-- The mandatory identity pattern of `parse_starter`:
`^(\d{1,2})\s+([A-ZÄÖÜ][A-Za-zäöüÄÖÜß\s'-]+)`. -/
def IDENT_PAT : List RE :=
  [RE.grp 1 [reR isDigitC 1 2], reP isWs,
   RE.grp 2 [reN isUpperDE 1, reP isNameChar]]

/-- `PAT_A` of `split_blocks`: a single-line starter header. -/
def PAT_A : List RE :=
  [RE.grp 1 [reR isDigitC 1 2], reP isWs,
   RE.grp 2 [reN isUpperDE 1, rePL isNameChar], reP isWs,
   RE.opt [reP isDigitDot, reS isWs, reL "€", reP isWs],
   reN isDigitC 4, reL ":", reS isWs, reP isDigitC, reP isWs,
   reL "Start", reO (· == 's')]

/-- `PAT_NAME` of `split_blocks`: a whole line that is one capitalized
name. -/
def PAT_NAME : List RE := [reN isUpperDE 1, reP isNameChar, RE.endAnchor]

/-- `PAT_NR` of `split_blocks`: a whole line that is a 1–2 digit number. -/
def PAT_NR : List RE := [RE.grp 1 [reR isDigitC 1 2], RE.endAnchor]

/-- `^\d+j\.`: the pedigree-shaped line test. -/
def PED_START_PAT : List RE := [reP isDigitC, reL "j."]

/-- The pedigree pattern `(\d+)j\. (\w+) ([A-Z]) \(([^-]+) - ([^)]+)\)`. -/
def PED_PAT : List RE :=
  [RE.grp 1 [reP isDigitC], reL "j.", reP isWs,
   RE.grp 2 [reP isWordChar], reP isWs,
   RE.grp 3 [reN isAsciiUpper 1], reP isWs, reL "(",
   RE.grp 4 [reP isNotDash], reS isWs, reL "-", reS isWs,
   RE.grp 5 [reP isNotParen], reL ")"]

/-- The label pattern of `ef`: `<label>:\s*(.+)`. -/
def efPat (label : String) : List RE :=
  [reL label, reL ":", reS isWs, RE.grp 1 [reP isDotAny]]

/-- The declared-weight pattern `^(\d{2}\.\d{2})\s+Besitzer:` (multiline). -/
def WEIGHT_PAT : List RE :=
  [RE.grp 1 [reN isDigitC 2, reL ".", reN isDigitC 2], reP isWs, reL "Besitzer:"]

/-- The scrambled Box/ML header-row marker `B\s+M\s+o\s+L`. -/
def BML_PAT : List RE :=
  [reL "B", reP isWs, reL "M", reP isWs, reL "o", reP isWs, reL "L"]

/-- The wagering pattern of `parse_box_ml`:
`:\s*(\d+)\s+(\d+)\s*,(\d)\s*(\d*)`. -/
def BOX_PAT : List RE :=
  [reL ":", reS isWs, RE.grp 1 [reP isDigitC], reP isWs,
   RE.grp 2 [reP isDigitC], reS isWs, reL ",", RE.grp 3 [reN isDigitC 1],
   reS isWs, RE.grp 4 [reS isDigitC]]

/-! ### Helper functions of the scraper -/

/-- `jockey_from_rest`: first two whitespace tokens of the trailing free
text of a form entry, one token if only one exists, `''` otherwise. -/
def jockey_from_rest (rest : String) : String :=
  match splitWs rest with
  | t0 :: t1 :: _ => t0 ++ " " ++ t1
  | [t0] => t0
  | [] => ""

/-- `parse_box_ml`: decode the scrambled Box/ML line; morning-line odds
are `<g1>.<g3>` and the box number is the primary digits `g2` with the
optional extra digit fragment `g4` appended when present.  `(None, None)`
on non-match. -/
def parse_box_ml (line : String) : Option Q × Option Nat :=
  match reSearch BOX_PAT line.data with
  | none => (none, none)
  | some (caps, _) =>
    let ml : Q := (Q.ofNat ((parseDigits (grpGet caps 1)).getD 0)).add
      ((Q.ofNat ((parseDigits (grpGet caps 3)).getD 0)).div (Q.ofNat 10))
    let box : Nat :=
      if grpGet caps 4 = [] then (parseDigits (grpGet caps 2)).getD 0
      else (parseDigits (grpGet caps 2 ++ grpGet caps 4)).getD 0
    (some ml, some box)

/-- `ef`: free-text label extraction `<label>:\s*(.+)`, stripped; `''` on
non-match. -/
def ef (text label : String) : String :=
  match reSearch (efPat label) text.data with
  | some (caps, _) => pyStrip (grpStr caps 1)
  | none => ""

/-! ### Block segmentation (`split_blocks`) -/

/-- Does `PAT_A` match at the start of the line? -/
def patA (l : String) : Bool := (reMatchAt PAT_A l.data).isSome

/-- Does `PAT_NAME` match the whole line? -/
def patName (l : String) : Bool := (reMatchAt PAT_NAME l.data).isSome

/-- Does `PAT_NR` match the whole line? -/
def patNr (l : String) : Bool := (reMatchAt PAT_NR l.data).isSome

/-- Does the line start like a pedigree line (`^\d+j\.`)? -/
def pedStart (l : String) : Bool := (reMatchAt PED_START_PAT l.data).isSome

/-- Close the currently open block, if any. -/
def emit : Option (List String) → List (List String)
  | none => []
  | some b => [b]

/-- The scan loop of `split_blocks`: one open block, a shape-(a) or
shape-(b) hit closes it and opens a new one; shape (b) synthesizes the
header line from the number line and the name line and consumes three
lines; other lines are appended to the open block (and dropped while no
block is open). -/
def split_blocks_go : Nat → Option (List String) → List String → List (List String)
  | 0, cur, _ => emit cur
  | _ + 1, cur, [] => emit cur
  | fuel + 1, cur, l0 :: l1 :: l2 :: rest2 =>
    if patA l0 then
      emit cur ++ split_blocks_go fuel (some [l0]) (l1 :: l2 :: rest2)
    else if patName l0 && patNr l1 && pedStart l2 then
      emit cur ++ split_blocks_go fuel (some [pyStrip l1 ++ " " ++ pyStrip l0, l2]) rest2
    else split_blocks_go fuel (cur.map (fun b => b ++ [l0])) (l1 :: l2 :: rest2)
  | fuel + 1, cur, l0 :: rest =>
    if patA l0 then emit cur ++ split_blocks_go fuel (some [l0]) rest
    else split_blocks_go fuel (cur.map (fun b => b ++ [l0])) rest

/-- `split_blocks`: partition a page's lines into starter blocks.  The
fuel argument (one unit per loop iteration, which consumes at least one
line) only serves structural termination and never runs out. -/
def split_blocks (lines : List String) : List (List String) :=
  split_blocks_go (lines.length + 1) none lines

/-! ### Form-history extraction -/

/-- One raw prior-race entry as the form loop of `parse_starter` builds it
from a `FORM_PAT` match. -/
structure RawEntry where
  date : String
  venue : String
  place : Nat
  weight : Q
  distance : Nat
  prize : Nat
  odds : Option Q
  jockey : String
deriving DecidableEq

/-- Build a raw entry from the captures of one `FORM_PAT` match.  The
`getD 0` defaults are unreachable: the corresponding captures are
guaranteed digit runs (for the prize, Python would raise on an all-dots
capture; that corner is modelled as 0). -/
def rawOfCaps (caps : Caps) : RawEntry :=
  { date := grpStr caps 1
    venue := grpStr caps 2
    place := (parseDigits (grpGet caps 3)).getD 0
    weight := (pyFloat (grpGet caps 4)).getD Q.zero
    distance := (parseDigits (grpGet caps 5)).getD 0
    prize := (parseDigits ((grpGet caps 6).filter (fun c => c != '.'))).getD 0
    odds := pf (grpStr caps 7)
    jockey := jockey_from_rest (grpStr caps 8) }

/-- All `FORM_PAT` matches of the given lines, in document order (the
nested `for line / for fm in finditer` loops of `parse_starter`). -/
def formRaws (ls : List String) : List RawEntry :=
  (ls.map (fun l => (findAll FORM_PAT l.data).map rawOfCaps)).flatten

/-- The form loop of `parse_starter`: a today-dated entry overwrites the
pending today-jockey and is skipped; other entries are appended while
fewer than five are held.  Returns (today_jockey, all_form). -/
def buildFormAux (today : String) : List RawEntry → String → List RawEntry →
    String × List RawEntry
  | [], tj, acc => (tj, acc)
  | e :: rest, tj, acc =>
    if e.date == today then buildFormAux today rest e.jockey acc
    else if acc.length < 5 then buildFormAux today rest tj (acc ++ [e])
    else buildFormAux today rest tj acc

/-- One of the five form-history slots of the output record; every
sub-field is `none` when the slot is unpopulated (the `''` defaults). -/
structure FormSlot where
  date : Option String
  venue : Option String
  place : Option Nat
  weight : Option Q
  distance : Option Nat
  prize : Option Nat
  odds : Option (Option Q)
  jockey : Option String
deriving DecidableEq

/-- The unpopulated slot. -/
def FormSlot.empty : FormSlot := ⟨none, none, none, none, none, none, none, none⟩

/-- A slot populated from a raw entry (`odds` can itself be the parsed
`None`, hence the nested option). -/
def FormSlot.ofEntry (e : RawEntry) : FormSlot :=
  ⟨some e.date, some e.venue, some e.place, some e.weight, some e.distance,
   some e.prize, some e.odds, some e.jockey⟩

/-- Slot for the `i`-th retained entry, empty past the end of the list. -/
def slotOf : Option RawEntry → FormSlot
  | none => FormSlot.empty
  | some e => FormSlot.ofEntry e

/-! ### The starter record and `parse_starter` -/

/-- One output record of `parse_starter` (the dict `s`), with the CSV
field names.  `Option` models the `''`/`None` empty values of optional
numeric fields. -/
structure Starter where
  meeting_date : String
  venue : String
  race_nr : Nat
  race_time : String
  race_name : String
  distance_m : Nat
  prize_eur : Nat
  surface : String
  field_size : Nat
  start_nr : Nat
  horse_name : String
  age : Option Nat
  color : String
  gender : String
  sire : String
  dam : String
  trainer : String
  owner : String
  breeder : String
  weight_kg : Option Q
  ml_odds : Option Q
  box_nr : Option Nat
  jockey : String
  starts_2025 : Nat
  wins_2025 : Nat
  places_2025 : Nat
  prize_2025 : Nat
  starts_2024 : Nat
  wins_2024 : Nat
  places_2024 : Nat
  prize_2024 : Nat
  win_pct_2025 : Q
  place_pct_2025 : Q
  win_pct_2024 : Q
  place_pct_2024 : Q
  total_starts : Nat
  total_wins : Nat
  career_win_pct : Q
  career_roi_approx : Q
  r1 : FormSlot
  r2 : FormSlot
  r3 : FormSlot
  r4 : FormSlot
  r5 : FormSlot
  days_since_last_run : Option ℤ
  avg_place_last5 : Option Q
  distance_diff_m : Option ℤ
  weight_diff_kg : Option Q
  venue_repeat : Nat
  jockey_change : Option Nat
  trainer_jockey_combo : String
deriving DecidableEq

/-- The yearly statistics retained for year `y`: the last `STATS_PAT`
match of the header line whose year capture equals `y`, defaulting to
`(0, 0, 0, 0)` (the dict `stats` of `parse_starter`). -/
def statsFor (capsList : List Caps) (y : Nat) : Nat × Nat × Nat × Nat :=
  capsList.foldl
    (fun acc caps =>
      if (parseDigits (grpGet caps 1)).getD 0 == y then
        ((parseDigits (grpGet caps 2)).getD 0,
         (parseDigits (grpGet caps 3)).getD 0,
         (parseDigits (grpGet caps 4)).getD 0,
         (parseDigits ((grpGet caps 5).filter (fun c => c != '.'))).getD 0)
      else acc)
    (0, 0, 0, 0)

/-- Percentage feature: `round(a/b, 4) if b else 0`. -/
def pct4 (a b : Nat) : Q :=
  if b = 0 then Q.zero else roundQ 4 ((Q.ofNat a).div (Q.ofNat b))

/-- The record `parse_starter` builds once the mandatory identity pattern
has matched with captures `caps0`.  Every `let` mirrors one statement of
the Python function body. -/
def starterOf (lines : List String) (venue : String) (race_nr : Nat)
    (race_time race_name : String) (distance_m prize_eur : Nat)
    (surface : String) (field_size : Nat) (race_date : String)
    (caps0 : Caps) : Starter :=
  let full := joinNl lines
  let line0 := lines.headD ""
  let start_nr := (parseDigits (grpGet caps0 1)).getD 0
  let horse_name := pyStrip (grpStr caps0 2)
  let statsCaps := findAll STATS_PAT line0.data
  let t25 := statsFor statsCaps 2025
  let t24 := statsFor statsCaps 2024
  let bl_src := (((lines.drop 1).take 3).find? (fun l => pedStart l)).getD ""
  let bl := reMatchAt PED_PAT bl_src.data
  let trainer := ef full "Trainer"
  let owner := ef full "Besitzer"
  let breeder := ef full "Züchter"
  let wm := msearchLineStart WEIGHT_PAT full.data
  let weight_kg : Option Q := wm.map (fun r => (pyFloat (grpGet r.1 1)).getD Q.zero)
  let bml := (lines.find? (fun l => (reSearch BML_PAT l.data).isSome)).getD ""
  let mlbox := parse_box_ml bml
  let today := pySlice race_date 8 10 ++ "." ++ pySlice race_date 5 7
  let raws := formRaws (lines.drop 1)
  let tf := buildFormAux today raws "" []
  let today_jockey := tf.1
  let all_form := tf.2
  let jockey :=
    if today_jockey = "" then (all_form.head?.map (fun e => e.jockey)).getD ""
    else today_jockey
  let days := match all_form.head? with
    | none => none
    | some e => calc_days e.date race_date
  let vp := (all_form.filter (fun r => r.place < 20)).map (fun r => r.place)
  let avg : Option Q :=
    if vp = [] then none
    else some (roundQ 2 ((Q.ofNat (vp.foldl (· + ·) 0)).div (Q.ofNat vp.length)))
  let dist_diff := all_form.head?.map (fun e => (distance_m : ℤ) - (e.distance : ℤ))
  let wdiff : Option Q := match weight_kg, all_form.head? with
    | some w, some e => if w = Q.zero then none else some (roundQ 1 (w.sub e.weight))
    | _, _ => none
  let venue_repeat := if all_form.any (fun r => r.venue == venue) then 1 else 0
  let main_last :=
    if jockey = "" then "" else ((splitWs jockey).getLast?).getD ""
  let r1j := (all_form.head?.map (fun e => e.jockey)).getD ""
  let r1_last := if r1j = "" then "" else ((splitWs r1j).getLast?).getD ""
  let jockey_change : Option Nat :=
    if main_last ≠ "" ∧ r1_last ≠ "" then
      some (if main_last = r1_last then 0 else 1)
    else none
  { meeting_date := race_date, venue := venue, race_nr := race_nr
    race_time := race_time, race_name := race_name, distance_m := distance_m
    prize_eur := prize_eur, surface := surface, field_size := field_size
    start_nr := start_nr, horse_name := horse_name
    age := bl.map (fun r => (parseDigits (grpGet r.1 1)).getD 0)
    color := (bl.map (fun r => grpStr r.1 2)).getD ""
    gender := (bl.map (fun r => grpStr r.1 3)).getD ""
    sire := (bl.map (fun r => pyStrip (grpStr r.1 4))).getD ""
    dam := (bl.map (fun r => pyStrip (grpStr r.1 5))).getD ""
    trainer := trainer, owner := owner, breeder := breeder
    weight_kg := weight_kg, ml_odds := mlbox.1, box_nr := mlbox.2
    jockey := jockey
    starts_2025 := t25.1, wins_2025 := t25.2.1, places_2025 := t25.2.2.1
    prize_2025 := t25.2.2.2
    starts_2024 := t24.1, wins_2024 := t24.2.1, places_2024 := t24.2.2.1
    prize_2024 := t24.2.2.2
    win_pct_2025 := pct4 t25.2.1 t25.1
    place_pct_2025 := pct4 t25.2.2.1 t25.1
    win_pct_2024 := pct4 t24.2.1 t24.1
    place_pct_2024 := pct4 t24.2.2.1 t24.1
    total_starts := t25.1 + t24.1, total_wins := t25.2.1 + t24.2.1
    career_win_pct := pct4 (t25.2.1 + t24.2.1) (t25.1 + t24.1)
    career_roi_approx :=
      if t25.1 + t24.1 = 0 then Q.zero
      else roundQ 2 ((Q.ofNat (t25.2.2.2 + t24.2.2.2)).div (Q.ofNat (t25.1 + t24.1)))
    r1 := slotOf (all_form.get? 0), r2 := slotOf (all_form.get? 1)
    r3 := slotOf (all_form.get? 2), r4 := slotOf (all_form.get? 3)
    r5 := slotOf (all_form.get? 4)
    days_since_last_run := days, avg_place_last5 := avg
    distance_diff_m := dist_diff, weight_diff_kg := wdiff
    venue_repeat := venue_repeat, jockey_change := jockey_change
    trainer_jockey_combo := trainer ++ "|" ++ jockey }

/-- `parse_starter`: `None` exactly when the mandatory identity pattern
fails on the block's first line (the only rejection in the function),
otherwise the fully populated record. -/
def parse_starter (lines : List String) (venue : String) (race_nr : Nat)
    (race_time race_name : String) (distance_m prize_eur : Nat)
    (surface : String) (field_size : Nat) (race_date : String) :
    Option Starter :=
  match reMatchAt IDENT_PAT (lines.headD "").data with
  | none => none
  | some m =>
    some (starterOf lines venue race_nr race_time race_name distance_m
      prize_eur surface field_size race_date m.1)

/-- Does the mandatory identity pattern accept the block's first line? -/
def identOK (b : List String) : Bool :=
  (reMatchAt IDENT_PAT (b.headD "").data).isSome

/-- The per-page block loop of `parse_wettstar_pdf` (lines 174–181): the
page's lines are segmented, every block is fed to `parse_starter` with
`field_size = len(blocks)`, and `None` results are dropped. -/
def parsePageBlocks (lines : List String) (venue : String) (race_nr : Nat)
    (race_time race_name : String) (distance_m prize_eur : Nat)
    (surface : String) (race_date : String) : List Starter :=
  let blocks := split_blocks lines
  blocks.filterMap (fun b =>
    parse_starter b venue race_nr race_time race_name distance_m prize_eur
      surface blocks.length race_date)

/-! ### Layout B of the Wagering Decoder (modelled from the spec) -/

/-- Modelled from the spec: the Layout-B wagering pattern of the later
document revision is not in the repository sources (only the Layout-A
decoder `parse_box_ml` is); per §4.4 it additionally captures, after the
Layout-A numeric groups, a trailing jockey name terminated by the next
date-like token (`DD.MM`) or the line end. -/
def BOXB_PAT : List RE :=
  BOX_PAT ++
    [RE.grp 5 [rePL isDotAny],
     RE.lookAhead [reS isWs, reN isDigitC 2, reL ".", reN isDigitC 2]
       [reS isWs, RE.endAnchor]]

/-- Modelled from the spec: jockey normalization of Layout B — keep at
most the first 3 whitespace-separated tokens. -/
def normJockey3 (raw : String) : String := joinSp ((splitWs raw).take 3)

/-- Modelled from the spec: the Layout-B wagering decoder — the Layout-A
odds/box reconstruction plus the normalized trailing jockey name. -/
def parse_box_ml_B (line : String) : Option (Q × Nat × String) :=
  match reSearch BOXB_PAT line.data with
  | none => none
  | some (caps, _) =>
    let ml : Q := (Q.ofNat ((parseDigits (grpGet caps 1)).getD 0)).add
      ((Q.ofNat ((parseDigits (grpGet caps 3)).getD 0)).div (Q.ofNat 10))
    let box : Nat :=
      if grpGet caps 4 = [] then (parseDigits (grpGet caps 2)).getD 0
      else (parseDigits (grpGet caps 2 ++ grpGet caps 4)).getD 0
    some (ml, box, normJockey3 (grpStr caps 5))

/-! ### Structural lemmas about the form-history loop -/

theorem getD_map_getLast?_cons {α β : Type} (f : α → β) (d : β) (a : α)
    (l : List α) :
    (((a :: l).getLast?).map f).getD d = ((l.getLast?.map f).getD (f a)) := by
  induction l generalizing a d with
  | nil => simp
  | cons b l' ih => rw [List.getLast?_cons_cons, ih d b, ih (f a) b]

/-- The imperative form loop equals its declarative description: the
today-jockey ends up as the jockey of the last today-dated entry (or the
initial value), and the retained history is the first `5 - |acc|`
non-today entries appended to the accumulator. -/
theorem buildFormAux_spec (today : String) (raws : List RawEntry)
    (tj : String) (acc : List RawEntry) :
    buildFormAux today raws tj acc =
      ((((raws.filter (fun e => e.date == today)).getLast?.map
          (fun e => e.jockey)).getD tj),
       acc ++ (raws.filter (fun e => !(e.date == today))).take (5 - acc.length)) := by
  induction raws generalizing tj acc with
  | nil => simp [buildFormAux]
  | cons e rest ih =>
    cases hd : (e.date == today) with
    | true =>
      simp only [buildFormAux, hd, if_true, Bool.not_true, if_false,
        List.filter_cons]
      rw [ih e.jockey acc, getD_map_getLast?_cons]
      simp
    | false =>
      simp only [buildFormAux, hd, Bool.false_eq_true, if_false,
        Bool.not_false, if_true, List.filter_cons]
      by_cases hl : acc.length < 5
      · rw [if_pos hl, ih tj (acc ++ [e])]
        have h5 : 5 - acc.length = (4 - acc.length) + 1 := by omega
        have h5' : 5 - (acc ++ [e]).length = 4 - acc.length := by
          simp only [List.length_append, List.length_cons, List.length_nil]
          omega
        rw [h5, h5', List.take_succ_cons, List.append_assoc]
        rfl
      · rw [if_neg hl, ih tj acc]
        have h0 : 5 - acc.length = 0 := by omega
        rw [h0]
        simp

/-- Dropping an element on which `f` is `none` strictly shrinks the
`filterMap` image. -/
theorem length_filterMap_lt_of_none {α β : Type} (f : α → Option β)
    (l : List α) (b : α) (hb : b ∈ l) (hfb : f b = none) :
    (l.filterMap f).length < l.length := by
  induction l with
  | nil => cases hb
  | cons a l ih =>
    rcases List.mem_cons.mp hb with h | h
    · subst h
      rw [List.filterMap_cons, hfb]
      simp only [List.length_cons]
      exact Nat.lt_succ_of_le (List.length_filterMap_le f l)
    · rw [List.filterMap_cons]
      cases hfa : f a with
      | none =>
        simp only [List.length_cons]
        exact Nat.lt_succ_of_lt (ih h)
      | some v =>
        simp only [List.length_cons]
        exact Nat.succ_lt_succ (ih h)

/-- A slot is fully unset exactly when it was filled from no entry. -/
theorem slotOf_eq_empty_iff (o : Option RawEntry) :
    slotOf o = FormSlot.empty ↔ o = none := by
  cases o with
  | none => simp [slotOf]
  | some e =>
    simp only [slotOf, FormSlot.ofEntry, FormSlot.empty]
    constructor
    · intro h
      cases h
    · intro h
      cases h

/-! ### Inversion of `parse_starter` -/

theorem parse_starter_eq_none_iff (lines : List String) (venue : String)
    (race_nr : Nat) (race_time race_name : String) (distance_m prize_eur : Nat)
    (surface : String) (field_size : Nat) (race_date : String) :
    parse_starter lines venue race_nr race_time race_name distance_m prize_eur
      surface field_size race_date = none ↔ identOK lines = false := by
  unfold parse_starter identOK
  cases reMatchAt IDENT_PAT (lines.headD "").data <;> simp

theorem parse_starter_eq_some (lines : List String) (venue : String)
    (race_nr : Nat) (race_time race_name : String) (distance_m prize_eur : Nat)
    (surface : String) (field_size : Nat) (race_date : String) (rec : Starter)
    (h : parse_starter lines venue race_nr race_time race_name distance_m
      prize_eur surface field_size race_date = some rec) :
    ∃ m, reMatchAt IDENT_PAT (lines.headD "").data = some m ∧
      rec = starterOf lines venue race_nr race_time race_name distance_m
        prize_eur surface field_size race_date m.1 := by
  unfold parse_starter at h
  cases hm : reMatchAt IDENT_PAT (lines.headD "").data with
  | none => rw [hm] at h; cases h
  | some m =>
    rw [hm] at h
    exact ⟨m, rfl, (Option.some_injective _ h).symm⟩

/-! ### Definitional projections of `starterOf` used by the theorems -/

theorem starterOf_field_size (lines : List String) (venue : String)
    (race_nr : Nat) (race_time race_name : String) (distance_m prize_eur : Nat)
    (surface : String) (field_size : Nat) (race_date : String) (c : Caps) :
    (starterOf lines venue race_nr race_time race_name distance_m prize_eur
      surface field_size race_date c).field_size = field_size := rfl

theorem starterOf_jockey (lines : List String) (venue : String)
    (race_nr : Nat) (race_time race_name : String) (distance_m prize_eur : Nat)
    (surface : String) (field_size : Nat) (race_date : String) (c : Caps) :
    (starterOf lines venue race_nr race_time race_name distance_m prize_eur
      surface field_size race_date c).jockey =
      (let today := pySlice race_date 8 10 ++ "." ++ pySlice race_date 5 7
       let tf := buildFormAux today (formRaws (lines.drop 1)) "" []
       if tf.1 = "" then ((tf.2.head?.map (fun e => e.jockey)).getD "")
       else tf.1) := rfl

theorem starterOf_slots (lines : List String) (venue : String)
    (race_nr : Nat) (race_time race_name : String) (distance_m prize_eur : Nat)
    (surface : String) (field_size : Nat) (race_date : String) (c : Caps) :
    (let st := starterOf lines venue race_nr race_time race_name distance_m
        prize_eur surface field_size race_date c
       let tf := buildFormAux (pySlice race_date 8 10 ++ "." ++ pySlice race_date 5 7)
        (formRaws (lines.drop 1)) "" []
       st.r1 = slotOf (tf.2.get? 0) ∧ st.r2 = slotOf (tf.2.get? 1) ∧
       st.r3 = slotOf (tf.2.get? 2) ∧ st.r4 = slotOf (tf.2.get? 3) ∧
       st.r5 = slotOf (tf.2.get? 4)) :=
  ⟨rfl, rfl, rfl, rfl, rfl⟩

theorem starterOf_weight_kg (lines : List String) (venue : String)
    (race_nr : Nat) (race_time race_name : String) (distance_m prize_eur : Nat)
    (surface : String) (field_size : Nat) (race_date : String) (c : Caps) :
    (starterOf lines venue race_nr race_time race_name distance_m prize_eur
      surface field_size race_date c).weight_kg =
      (msearchLineStart WEIGHT_PAT (joinNl lines).data).map
        (fun r => (pyFloat (grpGet r.1 1)).getD Q.zero) := rfl

theorem starterOf_weight_diff (lines : List String) (venue : String)
    (race_nr : Nat) (race_time race_name : String) (distance_m prize_eur : Nat)
    (surface : String) (field_size : Nat) (race_date : String) (c : Caps) :
    (starterOf lines venue race_nr race_time race_name distance_m prize_eur
      surface field_size race_date c).weight_diff_kg =
      (match (starterOf lines venue race_nr race_time race_name distance_m
          prize_eur surface field_size race_date c).weight_kg,
        (buildFormAux (pySlice race_date 8 10 ++ "." ++ pySlice race_date 5 7)
          (formRaws (lines.drop 1)) "" []).2.head? with
       | some w, some e => if w = Q.zero then none
         else some (roundQ 1 (w.sub e.weight))
       | _, _ => none) := rfl

/-! ### Claim theorems -/

/-- Claim C7: a block whose first line fails the mandatory identity
pattern (a 1–2 digit start number followed by a capitalized name)
contributes zero records to the page output, and the records produced
for every other block of the page — processed with the same header
context and field size — are unaffected by that rejection. -/
theorem C7_failed_identity_block_dropped (venue : String) (race_nr : Nat)
    (race_time race_name : String) (distance_m prize_eur : Nat)
    (surface : String) (field_size : Nat) (race_date : String)
    (pre post : List (List String)) (b : List String)
    (hb : identOK b = false) :
    (pre ++ b :: post).filterMap (fun blk =>
        parse_starter blk venue race_nr race_time race_name distance_m
          prize_eur surface field_size race_date) =
      (pre ++ post).filterMap (fun blk =>
        parse_starter blk venue race_nr race_time race_name distance_m
          prize_eur surface field_size race_date) := by
  have hnone : parse_starter b venue race_nr race_time race_name distance_m
      prize_eur surface field_size race_date = none :=
    (parse_starter_eq_none_iff b venue race_nr race_time race_name distance_m
      prize_eur surface field_size race_date).mpr hb
  simp [List.filterMap_append, List.filterMap_cons, hnone]

/-- Witness for C7 at a concrete page: the shape-(b) block synthesized
from the one-letter name line fails the identity pattern (its name needs
at least two characters) and drops out without disturbing the sibling
record. -/
theorem C7_witness :
    ([["7 Testhorse 2025: 10 Starts - 3 Siege - 2 Plätze 15.000€"]] ++
        ["4 A", "3j. b H (S - D)"] ::
          [["5 Testpferd", "01.01Hamburg 155.00 1600 1.000 2,0 Max Muster"]]).filterMap
        (fun blk => parse_starter blk "Hamburg" 1 "" "" 1600 10000 "Flach" 3
          "2026-02-01") =
      ([["7 Testhorse 2025: 10 Starts - 3 Siege - 2 Plätze 15.000€"]] ++
          [["5 Testpferd", "01.01Hamburg 155.00 1600 1.000 2,0 Max Muster"]]).filterMap
        (fun blk => parse_starter blk "Hamburg" 1 "" "" 1600 10000 "Flach" 3
          "2026-02-01") :=
  C7_failed_identity_block_dropped "Hamburg" 1 "" "" 1600 10000 "Flach" 3
    "2026-02-01" _ _ ["4 A", "3j. b H (S - D)"] (by decide)

/-- Claim C9: every record emitted for a page carries `field_size` equal
to the number of blocks the segmenter produced for the page (counted
before identity filtering), and when some block fails the identity
pattern the page contributes strictly fewer records than `field_size`. -/
theorem C9_field_size_counts_all_blocks (lines : List String)
    (venue : String) (race_nr : Nat) (race_time race_name : String)
    (distance_m prize_eur : Nat) (surface : String) (race_date : String) :
    (∀ rec ∈ parsePageBlocks lines venue race_nr race_time race_name
        distance_m prize_eur surface race_date,
      rec.field_size = (split_blocks lines).length) ∧
    ((∃ b ∈ split_blocks lines, identOK b = false) →
      (parsePageBlocks lines venue race_nr race_time race_name distance_m
          prize_eur surface race_date).length < (split_blocks lines).length) := by
  constructor
  · intro rec hrec
    simp only [parsePageBlocks] at hrec
    obtain ⟨b, _, hsome⟩ := List.mem_filterMap.mp hrec
    obtain ⟨m, _, hrec'⟩ := parse_starter_eq_some b venue race_nr race_time
      race_name distance_m prize_eur surface (split_blocks lines).length
      race_date rec hsome
    rw [hrec']
    exact starterOf_field_size b venue race_nr race_time race_name distance_m
      prize_eur surface (split_blocks lines).length race_date m.1
  · rintro ⟨b, hb, hfail⟩
    simp only [parsePageBlocks]
    exact length_filterMap_lt_of_none _ _ b hb
      ((parse_starter_eq_none_iff b venue race_nr race_time race_name
        distance_m prize_eur surface (split_blocks lines).length
        race_date).mpr hfail)

/-- Witness for C9 at a concrete page: two blocks are segmented, one
fails the identity pattern, and only one record comes out. -/
theorem C9_witness :
    (parsePageBlocks
        ["7 Testhorse 2025: 10 Starts - 3 Siege - 2 Plätze 15.000€",
         "A ", "4", "3j. b H (S - D)"]
        "Hamburg" 1 "" "" 1600 10000 "Flach" "2026-02-01").length <
      (split_blocks
        ["7 Testhorse 2025: 10 Starts - 3 Siege - 2 Plätze 15.000€",
         "A ", "4", "3j. b H (S - D)"]).length :=
  (C9_field_size_counts_all_blocks
      ["7 Testhorse 2025: 10 Starts - 3 Siege - 2 Plätze 15.000€",
       "A ", "4", "3j. b H (S - D)"]
      "Hamburg" 1 "" "" 1600 10000 "Flach" "2026-02-01").2
    ⟨["4 A", "3j. b H (S - D)"], by decide, by decide⟩

/-- Claim C10: when the declared racing weight line parses to exactly
0.0, `weight_diff_kg` stays empty even if a most-recent form entry with a
weight exists — zero weight is treated like a missing weight. -/
theorem C10_zero_weight_no_diff (lines : List String) (venue : String)
    (race_nr : Nat) (race_time race_name : String) (distance_m prize_eur : Nat)
    (surface : String) (field_size : Nat) (race_date : String) (rec : Starter)
    (h : parse_starter lines venue race_nr race_time race_name distance_m
      prize_eur surface field_size race_date = some rec)
    (hw : rec.weight_kg = some Q.zero) :
    rec.weight_diff_kg = none := by
  obtain ⟨m, _, hrec⟩ := parse_starter_eq_some lines venue race_nr race_time
    race_name distance_m prize_eur surface field_size race_date rec h
  subst hrec
  rw [starterOf_weight_diff, hw]
  cases (buildFormAux (pySlice race_date 8 10 ++ "." ++ pySlice race_date 5 7)
      (formRaws (lines.drop 1)) "" []).2.head? with
  | none => rfl
  | some e => simp

/-- Witness for C10: a block with a `00.00 Besitzer:` weight line and one
prior-race entry still leaves the weight difference empty. -/
theorem C10_witness :
    ((parse_starter
        ["5 Testpferd", "00.00 Besitzer: Stall Test",
         "01.01Hamburg 155.00 1600 1.000 2,0 Max Muster"]
        "Hamburg" 1 "" "" 1600 10000 "Flach" 10 "2026-02-01").get
      (by decide)).weight_diff_kg = none :=
  C10_zero_weight_no_diff
    ["5 Testpferd", "00.00 Besitzer: Stall Test",
     "01.01Hamburg 155.00 1600 1.000 2,0 Max Muster"]
    "Hamburg" 1 "" "" 1600 10000 "Flach" 10 "2026-02-01" _
    (Option.some_get _).symm (by decide)

/-- Claim C8: the five form-history slots are right-packed — each slot is
fully unset whenever the previous one is — and the retained history never
holds more than 5 entries. -/
theorem C8_slots_right_packed (lines : List String) (venue : String)
    (race_nr : Nat) (race_time race_name : String) (distance_m prize_eur : Nat)
    (surface : String) (field_size : Nat) (race_date : String) (rec : Starter)
    (h : parse_starter lines venue race_nr race_time race_name distance_m
      prize_eur surface field_size race_date = some rec) :
    ((rec.r1 = FormSlot.empty → rec.r2 = FormSlot.empty) ∧
     (rec.r2 = FormSlot.empty → rec.r3 = FormSlot.empty) ∧
     (rec.r3 = FormSlot.empty → rec.r4 = FormSlot.empty) ∧
     (rec.r4 = FormSlot.empty → rec.r5 = FormSlot.empty)) ∧
    (buildFormAux (pySlice race_date 8 10 ++ "." ++ pySlice race_date 5 7)
        (formRaws (lines.drop 1)) "" []).2.length ≤ 5 := by
  obtain ⟨m, _, hrec⟩ := parse_starter_eq_some lines venue race_nr race_time
    race_name distance_m prize_eur surface field_size race_date rec h
  subst hrec
  obtain ⟨h1, h2, h3, h4, h5⟩ := starterOf_slots lines venue race_nr race_time
    race_name distance_m prize_eur surface field_size race_date m.1
  set tf := buildFormAux (pySlice race_date 8 10 ++ "." ++ pySlice race_date 5 7)
    (formRaws (lines.drop 1)) "" [] with htf
  have step : ∀ i j : Nat, i ≤ j →
      slotOf (tf.2.get? i) = FormSlot.empty →
      slotOf (tf.2.get? j) = FormSlot.empty := by
    intro i j hij hempty
    rw [slotOf_eq_empty_iff] at hempty ⊢
    rw [List.get?_eq_none] at hempty ⊢
    omega
  refine ⟨⟨?_, ?_, ?_, ?_⟩, ?_⟩
  · rw [h1, h2]; exact step 0 1 (by omega)
  · rw [h2, h3]; exact step 1 2 (by omega)
  · rw [h3, h4]; exact step 2 3 (by omega)
  · rw [h4, h5]; exact step 3 4 (by omega)
  · rw [htf, buildFormAux_spec]
    simp only [List.nil_append, List.length_take]
    exact Nat.min_le_left _ _

/-- Witness for C8 at a concrete record with a single history entry. -/
theorem C8_witness :
    (let st8 := (parse_starter
        ["5 Testpferd", "01.01Hamburg 155.00 1600 1.000 2,0 Max Muster"]
        "Hamburg" 1 "" "" 1600 10000 "Flach" 10 "2026-02-01").get (by decide)
     st8.r2 = FormSlot.empty → st8.r3 = FormSlot.empty) :=
  ((C8_slots_right_packed
      ["5 Testpferd", "01.01Hamburg 155.00 1600 1.000 2,0 Max Muster"]
      "Hamburg" 1 "" "" 1600 10000 "Flach" 10 "2026-02-01" _
      (Option.some_get _).symm).1).2.1

/-- Claim C1: Scenario A — the block header line
`7 Testhorse 2025: 10 Starts - 3 Siege - 2 Plätze 15.000€` yields
start number 7, name `Testhorse`, the 2025 statistics (10, 3, 2, 15000)
and the derived percentages 0.3 and 0.2; percentages are wins/starts and
places/starts rounded to 4 decimals and 0 when starts is 0. -/
theorem C1_scenario_A :
    ((parse_starter ["7 Testhorse 2025: 10 Starts - 3 Siege - 2 Plätze 15.000€"]
        "Hamburg" 1 "" "" 1600 10000 "Flach" 10 "2026-02-01").map
      (fun r => (r.start_nr, r.horse_name, r.starts_2025, r.wins_2025)) =
      some (7, "Testhorse", 10, 3)) ∧
    ((parse_starter ["7 Testhorse 2025: 10 Starts - 3 Siege - 2 Plätze 15.000€"]
        "Hamburg" 1 "" "" 1600 10000 "Flach" 10 "2026-02-01").map
      (fun r => (r.places_2025, r.prize_2025, r.win_pct_2025, r.place_pct_2025)) =
      some (2, 15000, (⟨3, 10⟩ : Q), (⟨1, 5⟩ : Q))) ∧
    (∀ w : Nat, pct4 w 0 = Q.zero) := by
  refine ⟨?_, ?_, ?_⟩
  · decide
  · decide
  · intro w
    rfl

/-- Claim C5: Scenario B — a wagering line containing the fragment
`: 12 5 ,5 0` decodes to morning-line odds 12.5 (odds-integer `12` joined
with odds-decimal `5`) and box number 50 (primary digits `5` concatenated
with the extra digit `0`). -/
theorem C5_scenario_B :
    parse_box_ml "B M o L x : : 12 5 ,5 0" = (some (⟨25, 2⟩ : Q), some 50) := by
  decide

/-- Claim C3, counterexample: on the shape-(b) block
`Beautiful Dawn` / `4` / `3j. b H (S - D)` the segmenter synthesizes the
header `"4 Beautiful Dawn"` (start number first), not the claimed
`"Beautiful Dawn 4"`. -/
theorem C3_counterexample :
    split_blocks ["Beautiful Dawn", "4", "3j. b H (S - D)"] =
      [["4 Beautiful Dawn", "3j. b H (S - D)"]] ∧
    ¬ split_blocks ["Beautiful Dawn", "4", "3j. b H (S - D)"] =
        [["Beautiful Dawn 4", "3j. b H (S - D)"]] := by
  decide

/-- Claim C3 (amended): whenever the scan reaches a shape-(b) triple — a
standalone capitalized name line that is not a shape-(a) header, a
1–2-digit number line, a pedigree-shaped line — the segmenter closes the
current block and opens a new one whose synthesized header line is the
start number followed by the name, `"<startNr> <name>"`, keeping the
pedigree line and consuming all three lines. -/
theorem C3_amended_synth_header (fuel : Nat) (cur : Option (List String))
    (l0 l1 l2 : String) (rest : List String) (hA : patA l0 = false)
    (hN : patName l0 = true) (hNr : patNr l1 = true)
    (hP : pedStart l2 = true) :
    split_blocks_go (fuel + 1) cur (l0 :: l1 :: l2 :: rest) =
      emit cur ++
        split_blocks_go fuel (some [pyStrip l1 ++ " " ++ pyStrip l0, l2]) rest := by
  simp [split_blocks_go, hA, hN, hNr, hP]

/-- Witness for the amended C3 at a concrete shape-(b) triple with an
open block. -/
theorem C3_amended_witness :
    split_blocks_go 4 (some ["0 Prev"])
        ["Beautiful Dawn", "4", "3j. b H (S - D)"] =
      emit (some ["0 Prev"]) ++
        split_blocks_go 3 (some ["4 Beautiful Dawn", "3j. b H (S - D)"]) [] :=
  C3_amended_synth_header 3 (some ["0 Prev"]) "Beautiful Dawn" "4"
    "3j. b H (S - D)" [] (by decide) (by decide) (by decide) (by decide)

/-- A slot filled by the form loop never carries the meeting-day date:
the retained history is filtered of today-dated entries. -/
theorem slot_date_ne_today (today : String) (raws : List RawEntry) (i : Nat)
    (d : String)
    (hd : (slotOf ((buildFormAux today raws "" []).2.get? i)).date = some d) :
    d ≠ today := by
  rw [buildFormAux_spec] at hd
  simp only [List.nil_append, List.length_nil, Nat.sub_zero] at hd
  cases hget : ((raws.filter (fun e => !(e.date == today))).take 5).get? i with
  | none => rw [hget] at hd; cases hd
  | some e =>
    rw [hget] at hd
    simp only [slotOf, FormSlot.ofEntry, Option.some.injEq] at hd
    have he : e ∈ raws.filter (fun e => !(e.date == today)) :=
      List.take_subset 5 _ (List.get?_mem hget)
    have hpred := (List.mem_filter.mp he).2
    intro hcontra
    subst hd
    rw [hcontra] at hpred
    simp at hpred

/-- Claim C4 (amended): a form entry dated like the meeting day is always
excluded from the retained history slots; the record's current jockey is
the jockey of the last today-dated entry when that jockey is non-blank,
otherwise the jockey of the most recent retained history entry, otherwise
blank. -/
theorem C4_amended_today_suppression (lines : List String) (venue : String)
    (race_nr : Nat) (race_time race_name : String) (distance_m prize_eur : Nat)
    (surface : String) (field_size : Nat) (race_date : String) (rec : Starter)
    (h : parse_starter lines venue race_nr race_time race_name distance_m
      prize_eur surface field_size race_date = some rec) :
    (rec.jockey =
      (let today := pySlice race_date 8 10 ++ "." ++ pySlice race_date 5 7
       let raws := formRaws (lines.drop 1)
       let tj := (((raws.filter (fun e => e.date == today)).getLast?).map
         (fun e => e.jockey)).getD ""
       if tj = "" then
         ((((raws.filter (fun e => !(e.date == today))).take 5).head?).map
           (fun e => e.jockey)).getD ""
       else tj)) ∧
    (∀ sl ∈ [rec.r1, rec.r2, rec.r3, rec.r4, rec.r5], ∀ d, sl.date = some d →
      d ≠ pySlice race_date 8 10 ++ "." ++ pySlice race_date 5 7) := by
  obtain ⟨m, _, hrec⟩ := parse_starter_eq_some lines venue race_nr race_time
    race_name distance_m prize_eur surface field_size race_date rec h
  subst hrec
  constructor
  · rw [starterOf_jockey]
    simp only [buildFormAux_spec, List.nil_append, List.length_nil,
      Nat.sub_zero]
  · obtain ⟨h1, h2, h3, h4, h5⟩ := starterOf_slots lines venue race_nr
      race_time race_name distance_m prize_eur surface field_size race_date m.1
    intro sl hsl d hd
    rcases List.mem_cons.mp hsl with rfl | hsl
    · rw [h1] at hd; exact slot_date_ne_today _ _ 0 d hd
    rcases List.mem_cons.mp hsl with rfl | hsl
    · rw [h2] at hd; exact slot_date_ne_today _ _ 1 d hd
    rcases List.mem_cons.mp hsl with rfl | hsl
    · rw [h3] at hd; exact slot_date_ne_today _ _ 2 d hd
    rcases List.mem_cons.mp hsl with rfl | hsl
    · rw [h4] at hd; exact slot_date_ne_today _ _ 3 d hd
    rcases List.mem_cons.mp hsl with rfl | hsl
    · rw [h5] at hd; exact slot_date_ne_today _ _ 4 d hd
    · cases hsl

/-- Witness for the amended C4: no today-dated entry, so the jockey falls
back to the most recent retained entry's jockey. -/
theorem C4_amended_witness :
    ((parse_starter
        ["5 Testpferd", "01.01Hamburg 155.00 1600 1.000 2,0 Max Muster"]
        "Hamburg" 1 "" "" 1600 10000 "Flach" 10 "2026-02-01").get
      (by decide)).jockey = "Max Muster" := by
  rw [(C4_amended_today_suppression
      ["5 Testpferd", "01.01Hamburg 155.00 1600 1.000 2,0 Max Muster"]
      "Hamburg" 1 "" "" 1600 10000 "Flach" 10 "2026-02-01" _
      (Option.some_get _).symm).1]
  decide

/-- Claim C4, counterexample: the block below has a today-dated form
entry (date `01.02`, meeting date 2026-02-01) whose extracted jockey is
blank; the claim says its jockey becomes the record's current jockey, but
the code's falsy-`or` fallback uses the most recent retained entry's
jockey `"Max Muster"` instead. -/
theorem C4_counterexample :
    ((formRaws ["01.02Hamburg 155.00 1600 1.000 2,0  ",
        "05.01Hamburg 155.00 1600 1.000 2,0 Max Muster"]).map
      (fun e => (e.date, e.jockey)) = [("01.02", ""), ("05.01", "Max Muster")]) ∧
    pySlice "2026-02-01" 8 10 ++ "." ++ pySlice "2026-02-01" 5 7 = "01.02" ∧
    ((parse_starter
        ["5 Testpferd", "01.02Hamburg 155.00 1600 1.000 2,0  ",
         "05.01Hamburg 155.00 1600 1.000 2,0 Max Muster"]
        "Hamburg" 1 "" "" 1600 10000 "Flach" 10 "2026-02-01").map
      (fun r => r.jockey) = some "Max Muster") ∧
    "Max Muster" ≠ "" := by
  refine ⟨?_, ?_, ?_, ?_⟩
  · decide
  · decide
  · decide
  · decide

/-! ### Calendar lemmas for the `days_since_last_run` sign analysis -/

/-- Cumulative month table: up to month 12, moving to a later month skips
at least the current month's days. -/
theorem dbm_mono : ∀ l : Bool, ∀ b < 13, ∀ a < 13, 1 ≤ a → a < b →
    dbm l a + dim l a ≤ dbm l b := by
  decide

/-- A month never extends past the year's end. -/
theorem dbm_dim_le : ∀ l : Bool, ∀ m < 13, 1 ≤ m →
    dbm l m + dim l m ≤ 365 + (if l then 1 else 0) := by
  decide

/-- `dby` steps by the length of the year: 365 days plus one in leap
years. -/
theorem dby_succ (y : Nat) (hy : 1 ≤ y) :
    dby (y + 1) = dby y + 365 + (if isLeap y then 1 else 0) := by
  obtain ⟨n, rfl⟩ : ∃ n, y = n + 1 := ⟨y - 1, by omega⟩
  have e1 : n + 1 + 1 - 1 = n + 1 := rfl
  have e2 : n + 1 - 1 = n := rfl
  have ha := Nat.div_le_self n 4
  have hb := Nat.div_le_self n 100
  have hcle := Nat.div_le_self n 400
  by_cases h4 : 4 ∣ (n + 1) <;> by_cases h100 : 100 ∣ (n + 1) <;>
    by_cases h400 : 400 ∣ (n + 1)
  all_goals
    try exact absurd (dvd_trans (by norm_num : (100 : ℕ) ∣ 400) h400) h100
  all_goals
    try exact absurd (dvd_trans (by norm_num : (4 : ℕ) ∣ 100) h100) h4
  all_goals
    have hd4 := Nat.succ_div n 4
    have hd100 := Nat.succ_div n 100
    have hd400 := Nat.succ_div n 400
    simp only [h4, h100, h400, if_true, if_false] at hd4 hd100 hd400
  -- remaining cases in `by_cases` order: (4∣,100∣,400∣) leap;
  -- (4∣,100∣,¬400∣) not leap; (4∣,¬100∣,¬400∣) leap; none divides, not leap
  · have hL : isLeap (n + 1) = true := by
      simp only [isLeap, Bool.or_eq_true, Bool.and_eq_true, beq_iff_eq,
        bne_iff_ne]
      omega
    simp [dby, e1, e2, hL, hd4, hd100, hd400]
    omega
  · have hL : isLeap (n + 1) = false := by
      simp only [isLeap, Bool.or_eq_false_iff, Bool.and_eq_false_iff,
        beq_eq_false_iff_ne, bne_eq_false_iff_eq, ne_eq]
      omega
    simp [dby, e1, e2, hL, hd4, hd100, hd400]
    omega
  · have hL : isLeap (n + 1) = true := by
      simp only [isLeap, Bool.or_eq_true, Bool.and_eq_true, beq_iff_eq,
        bne_iff_ne]
      omega
    simp [dby, e1, e2, hL, hd4, hd100, hd400]
    omega
  · have hL : isLeap (n + 1) = false := by
      simp only [isLeap, Bool.or_eq_false_iff, Bool.and_eq_false_iff,
        beq_eq_false_iff_ne, bne_eq_false_iff_eq, ne_eq]
      omega
    simp [dby, e1, e2, hL, hd4, hd100, hd400]
    omega

/-- Inverting a successful `parseMeeting`: the date was validated. -/
theorem parseMeeting_valid (s : String) (Y M D : Nat)
    (h : parseMeeting s = some (Y, M, D)) : validDate Y M D = true := by
  unfold parseMeeting at h
  by_cases hc : (s.data.length = 10 && s.data.get? 4 == some '-' &&
      s.data.get? 7 == some '-') = true
  · rw [if_pos hc] at h
    cases h1 : parseDigits (s.data.take 4) with
    | none => rw [h1] at h; cases h
    | some y =>
      rw [h1] at h
      cases h2 : parseDigits ((s.data.drop 5).take 2) with
      | none => rw [h2] at h; cases h
      | some mo =>
        rw [h2] at h
        cases h3 : parseDigits ((s.data.drop 8).take 2) with
        | none => rw [h3] at h; cases h
        | some d =>
          rw [h3] at h
          dsimp only at h
          by_cases hv : validDate y mo d = true
          · rw [if_pos hv] at h
            have h' := Option.some.inj h
            rw [Prod.mk.injEq, Prod.mk.injEq] at h'
            obtain ⟨rfl, rfl, rfl⟩ := h'
            exact hv
          · rw [if_neg hv] at h; cases h
  · rw [if_neg hc] at h; cases h

/-- Claim C2 (amended): `days_since_last_run` is non-negative whenever it
is computable, except when the entry's month equals the meeting month and
the entry's day exceeds the meeting day (the year-inference rule then
places the entry after the meeting). -/
theorem C2_amended_nonneg (l m : String) (n : ℤ) (Y M D dd mm : Nat)
    (hc : calc_days l m = some n) (hp : parseMeeting m = some (Y, M, D))
    (hdd : parseDigits (l.data.take 2) = some dd)
    (hmm : parseDigits ((l.data.drop 3).take 2) = some mm)
    (hexcl : ¬(mm = M ∧ D < dd)) : 0 ≤ n := by
  have hvmeet := parseMeeting_valid m Y M D hp
  simp only [validDate, Bool.and_eq_true, decide_eq_true_eq] at hvmeet
  obtain ⟨⟨⟨⟨⟨hY1, _⟩, hM1⟩, hM12⟩, hD1⟩, hDle⟩ := hvmeet
  unfold calc_days at hc
  by_cases hemp : (l = "" || m = "") = true
  · rw [if_pos hemp] at hc; cases hc
  · rw [if_neg hemp, hp, hdd, hmm] at hc
    dsimp only at hc
    by_cases hle : mm ≤ M
    · simp only [if_pos hle] at hc
      by_cases hval : validDate Y mm dd = true
      · rw [if_pos hval] at hc
        have hn := Option.some.inj hc
        subst hn
        simp only [validDate, Bool.and_eq_true, decide_eq_true_eq] at hval
        obtain ⟨⟨⟨⟨⟨_, _⟩, hmm1⟩, hmm12⟩, hdd1⟩, hddle⟩ := hval
        rcases Nat.eq_or_lt_of_le hle with heq | hlt
        · subst heq
          have hD : dd ≤ D := by
            by_contra hcon
            exact hexcl ⟨rfl, by omega⟩
          simp only [toord]
          push_cast
          omega
        · have hmono := dbm_mono (isLeap Y) M (by omega) mm (by omega)
            (by omega) hlt
          simp only [toord]
          push_cast
          omega
      · rw [if_neg hval] at hc; cases hc
    · simp only [if_neg hle] at hc
      by_cases hval : validDate (Y - 1) mm dd = true
      · rw [if_pos hval] at hc
        have hn := Option.some.inj hc
        subst hn
        simp only [validDate, Bool.and_eq_true, decide_eq_true_eq] at hval
        obtain ⟨⟨⟨⟨⟨hyr1, _⟩, hmm1⟩, hmm12⟩, hdd1⟩, hddle⟩ := hval
        have hY2 : 2 ≤ Y := by omega
        have hdby := dby_succ (Y - 1) (by omega)
        have hYe : Y - 1 + 1 = Y := by omega
        rw [hYe] at hdby
        have h3 := dbm_dim_le (isLeap (Y - 1)) mm (by omega) (by omega)
        simp only [toord]
        push_cast
        omega
      · rw [if_neg hval] at hc; cases hc

/-- Witness for the amended C2: Scenario C — meeting 2026-02-01 with an
entry dated 15.01 gives 17 days, and the amended theorem confirms the
value is non-negative. -/
theorem C2_amended_witness :
    calc_days "15.01" "2026-02-01" = some 17 ∧ (0 : ℤ) ≤ 17 :=
  ⟨by decide,
   C2_amended_nonneg "15.01" "2026-02-01" 17 2026 2 1 15 1 (by decide)
     (by decide) (by decide) (by decide) (by decide)⟩

/-- Claim C2, counterexample: with meeting date 2026-02-01 and a single
form entry dated 15.02, the year-inference rule picks 2026 (month 2 ≤
meeting month 2), the inferred date 2026-02-15 lies after the meeting,
and `days_since_last_run` comes out as −14 < 0 although it was
computable. -/
theorem C2_counterexample :
    calc_days "15.02" "2026-02-01" = some (-14) ∧
    ((parse_starter
        ["5 Testpferd", "15.02Hamburg 155.00 1600 1.000 2,0 Max Muster"]
        "Hamburg" 1 "" "" 1600 10000 "Flach" 10 "2026-02-01").map
      (fun r => r.days_since_last_run) = some (some (-14))) ∧
    (-14 : ℤ) < 0 := by
  refine ⟨by decide, by decide, by decide⟩

/-! ### Token lemmas for the Layout-B jockey normalization -/

theorem strAppend_data (a b : String) : (a ++ b).data = a.data ++ b.data := by
  cases a
  cases b
  rfl

/-- Tokens produced by the whitespace splitter are nonempty and free of
whitespace. -/
theorem splitWsAux_tokens (cs : List Char) : ∀ acc : List Char,
    (∀ c ∈ acc, isWs c = false) →
    ∀ t ∈ splitWsAux acc cs, t.data ≠ [] ∧ ∀ c ∈ t.data, isWs c = false := by
  induction cs with
  | nil =>
    intro acc hacc t ht
    unfold splitWsAux at ht
    split at ht
    · simp at ht
    · next hne =>
      rw [List.mem_singleton] at ht
      subst ht
      refine ⟨by simpa using hne, ?_⟩
      intro c hc
      exact hacc c (List.mem_reverse.mp hc)
  | cons c0 cs ih =>
    intro acc hacc t ht
    unfold splitWsAux at ht
    by_cases hws : isWs c0 = true
    · rw [if_pos hws] at ht
      by_cases hacc0 : acc = []
      · rw [if_pos hacc0] at ht
        exact ih [] (by simp) t ht
      · rw [if_neg hacc0] at ht
        rcases List.mem_cons.mp ht with rfl | ht'
        · refine ⟨by simpa using hacc0, ?_⟩
          intro c hc
          exact hacc c (List.mem_reverse.mp hc)
        · exact ih [] (by simp) t ht'
    · rw [if_neg hws] at ht
      refine ih (c0 :: acc) ?_ t ht
      intro c hc
      rcases List.mem_cons.mp hc with rfl | hcm
      · simpa using hws
      · exact hacc c hcm

/-- The splitter walks through a whitespace-free chunk by accumulating
it. -/
theorem splitWsAux_nonws (cs : List Char) : ∀ acc rest : List Char,
    (∀ c ∈ cs, isWs c = false) →
    splitWsAux acc (cs ++ rest) = splitWsAux (cs.reverse ++ acc) rest := by
  induction cs with
  | nil =>
    intro acc rest _
    simp
  | cons c0 cs ih =>
    intro acc rest h
    have hc0 : isWs c0 = false := h c0 (List.mem_cons_self c0 cs)
    show splitWsAux acc (c0 :: (cs ++ rest)) = _
    simp only [splitWsAux]
    rw [if_neg (by simp [hc0])]
    rw [ih (c0 :: acc) rest (fun c hc => h c (List.mem_cons_of_mem c0 hc))]
    have he : cs.reverse ++ (c0 :: acc) = (c0 :: cs).reverse ++ acc := by
      simp
    rw [he]

/-- Splitting the space-join of nonempty whitespace-free tokens recovers
exactly the tokens. -/
theorem splitWs_joinSp (l : List String)
    (h : ∀ t ∈ l, t.data ≠ [] ∧ ∀ c ∈ t.data, isWs c = false) :
    splitWs (joinSp l) = l := by
  induction l with
  | nil => rfl
  | cons t ts ih =>
    cases ts with
    | nil =>
      obtain ⟨hne, hnw⟩ := h t (by simp)
      show splitWs t = [t]
      unfold splitWs
      have hB := splitWsAux_nonws t.data [] [] hnw
      rw [List.append_nil, List.append_nil] at hB
      rw [hB]
      unfold splitWsAux
      rw [if_neg (by simpa using hne)]
      simp only [List.reverse_reverse]
    | cons t' ts' =>
      obtain ⟨hne, hnw⟩ := h t (by simp)
      have hrest : ∀ u ∈ t' :: ts',
          u.data ≠ [] ∧ ∀ c ∈ u.data, isWs c = false := by
        intro u hu
        exact h u (List.mem_cons_of_mem t hu)
      show splitWs (t ++ " " ++ joinSp (t' :: ts')) = t :: t' :: ts'
      unfold splitWs
      have hdata : (t ++ " " ++ joinSp (t' :: ts')).data =
          t.data ++ (' ' :: (joinSp (t' :: ts')).data) := by
        rw [strAppend_data, strAppend_data]
        simp
      rw [hdata]
      rw [splitWsAux_nonws t.data [] (' ' :: (joinSp (t' :: ts')).data) hnw]
      rw [List.append_nil]
      unfold splitWsAux
      rw [if_pos (by decide)]
      rw [if_neg (by simpa using hne)]
      simp only [List.reverse_reverse]
      have : String.mk t.data = t := rfl
      rw [this]
      rw [show splitWsAux [] (joinSp (t' :: ts')).data =
        splitWs (joinSp (t' :: ts')) from rfl]
      rw [ih hrest]

/-- Every token of a split is nonempty and whitespace-free. -/
theorem splitWs_tokens (s : String) :
    ∀ t ∈ splitWs s, t.data ≠ [] ∧ ∀ c ∈ t.data, isWs c = false :=
  splitWsAux_tokens s.data [] (by simp)

/-- The Layout-B normalization keeps exactly the first three tokens. -/
theorem normJockey3_split (raw : String) :
    splitWs (normJockey3 raw) = (splitWs raw).take 3 := by
  unfold normJockey3
  exact splitWs_joinSp _ (fun t ht => splitWs_tokens raw t (List.take_subset 3 _ ht))

/-- Claim C6 (spec-modelled Layout B): the later-revision wagering
decoder additionally captures a trailing jockey name from the scrambled
`B M o L` line, terminated by the next date-like token or the line end,
and normalizes it to at most its first 3 whitespace-separated tokens.
The general conjunct bounds every decoded jockey at 3 tokens; the two
scenarios exhibit termination at a date-like token and the 3-token
truncation. -/
theorem C6_layout_B_jockey :
    (∀ (line : String) (r : Q × Nat × String), parse_box_ml_B line = some r →
      (splitWs r.2.2).length ≤ 3) ∧
    parse_box_ml_B "B M o L x : : 12 5 ,5 0 Max Muster 01.02Hamburg 155.00" =
      some (⟨25, 2⟩, 50, "Max Muster") ∧
    parse_box_ml_B "B M o L x : : 12 5 ,5 0 Max Muster Jr Extra" =
      some (⟨25, 2⟩, 50, "Max Muster Jr") := by
  refine ⟨?_, by decide, by decide⟩
  intro line r h
  unfold parse_box_ml_B at h
  cases hs : reSearch BOXB_PAT line.data with
  | none => rw [hs] at h; cases h
  | some p =>
    rw [hs] at h
    have hr := Option.some.inj h
    rw [← hr]
    rw [normJockey3_split]
    have := List.length_take 3 (splitWs (grpStr p.1 5))
    omega

/-- Witness for C6: the decoded jockey of the second scenario respects
the 3-token bound. -/
theorem C6_witness : (splitWs "Max Muster Jr").length ≤ 3 :=
  C6_layout_B_jockey.1 "B M o L x : : 12 5 ,5 0 Max Muster Jr Extra"
    ((⟨25, 2⟩ : Q), 50, "Max Muster Jr") (by decide)

end Wettstar

